import Mathlib

/-!
# Verification of the `MortgageCalculator` payment engine

Shallow embedding of `src/models/MortgageCalculator.ts` over exact rational
arithmetic (`ℚ` standing for the ideal value of JavaScript's numbers; the
source uses double-precision floats, and the specification's invariants are
stated up to rounding tolerance, which exact arithmetic satisfies a
fortiori).  The loan term is embedded as a natural number of years, so that
`Math.pow (1 + r) n` is the algebraic power `(1 + r) ^ n` with
`n = 12 * termYears : ℕ`; this covers every input the specification's
invariants and scenarios quantify over (positive whole-year terms).
-/

namespace Mortgage

/-- Embedding of `calculateMonthlyPayment`: converts the annual percentage
rate to a monthly decimal rate, and applies the standard annuity formula,
with the straight-line edge case at zero monthly rate. -/
def calculateMonthlyPayment (loanAmount interestRate : ℚ) (loanTerm : ℕ) : ℚ :=
  let monthlyRate : ℚ := interestRate / 100 / 12
  let numberOfPayments : ℕ := loanTerm * 12
  if monthlyRate = 0 then
    loanAmount / (numberOfPayments : ℚ)
  else
    loanAmount * (monthlyRate * (1 + monthlyRate) ^ numberOfPayments) /
      ((1 + monthlyRate) ^ numberOfPayments - 1)

/-- Embedding of `calculateTotalPayment`. -/
def calculateTotalPayment (monthlyPayment : ℚ) (loanTerm : ℕ) : ℚ :=
  monthlyPayment * loanTerm * 12

/-- Embedding of `calculateTotalInterest`. -/
def calculateTotalInterest (totalPayment loanAmount : ℚ) : ℚ :=
  totalPayment - loanAmount

/-- One row of the amortization schedule, mirroring the record pushed by
`generateAmortizationSchedule`. -/
structure ScheduleEntry where
  paymentNumber : ℕ
  payment : ℚ
  principal : ℚ
  interest : ℚ
  remainingBalance : ℚ
deriving Repr, DecidableEq, Inhabited

/-- The loop body of `generateAmortizationSchedule`: `count` iterations
remain, `balance` is the running (unclamped) balance and `pn` the next
payment number.  Note that, as in the source, the *clamped* value
`max 0 balance` is only what gets stored in the entry; the balance carried
into the next iteration is the raw `balance - principalPayment`. -/
def schedGo (monthlyPayment monthlyRate : ℚ) (balance : ℚ) (pn : ℕ) :
    ℕ → List ScheduleEntry
  | 0 => []
  | count + 1 =>
    let interestPayment := balance * monthlyRate
    let principalPayment := monthlyPayment - interestPayment
    let balance' := balance - principalPayment
    { paymentNumber := pn, payment := monthlyPayment,
      principal := principalPayment, interest := interestPayment,
      remainingBalance := max 0 balance' } ::
      schedGo monthlyPayment monthlyRate balance' (pn + 1) count

/-- Embedding of `generateAmortizationSchedule`. -/
def generateAmortizationSchedule (loanAmount monthlyPayment interestRate : ℚ)
    (loanTerm : ℕ) : List ScheduleEntry :=
  schedGo monthlyPayment (interestRate / 100 / 12) loanAmount 1 (loanTerm * 12)

/-- The record returned by `calculateExtraPaymentImpact`. -/
structure ExtraPaymentImpact where
  newLoanTermMonths : ℕ
  monthsSaved : ℚ
  interestSaved : ℚ
  totalInterestStandard : ℚ
  totalInterestWithExtra : ℚ
deriving Repr, DecidableEq, Inhabited

/-- The `while (balance > 0 && month < loanTermMonths * 2)` loop of
`calculateExtraPaymentImpact`.  The month-cap side of the guard is folded
into the fuel: the loop is entered with `fuel = loanTermMonths * 2` and
`month = 0`, and each iteration consumes one unit, so `fuel = 0` is exactly
`month = loanTermMonths * 2`, at which point the loop exits returning the
current `(month, totalInterestWithExtra)` just as the source's guard does. -/
def extraLoop (monthlyRate totalPayment : ℚ) :
    ℕ → ℚ → ℚ → ℕ → ℕ × ℚ
  | 0, _, totalInterest, month => (month, totalInterest)
  | fuel + 1, balance, totalInterest, month =>
    if 0 < balance then
      let interestThisMonth := balance * monthlyRate
      let totalInterest' := totalInterest + interestThisMonth
      let balance' := balance - (totalPayment - interestThisMonth)
      if balance' < 0 then
        extraLoop monthlyRate totalPayment fuel 0
          (totalInterest' + balance' * monthlyRate) (month + 1)
      else
        extraLoop monthlyRate totalPayment fuel balance' totalInterest' (month + 1)
    else (month, totalInterest)

/-- Embedding of `calculateExtraPaymentImpact`.  The four `throw`s of the
source become `Except.error` with the source's messages; the two `return`s
become `Except.ok`. -/
def calculateExtraPaymentImpact (loanAmount interestRate : ℚ)
    (loanTermYears : ℕ) (extraMonthlyPayment : ℚ) :
    Except String ExtraPaymentImpact :=
  if loanAmount ≤ 0 then .error "Loan amount must be positive"
  else if interestRate < 0 then .error "Interest rate cannot be negative"
  else if loanTermYears ≤ 0 then .error "Loan term must be positive"
  else if extraMonthlyPayment < 0 then .error "Extra payment cannot be negative"
  else
    let loanTermMonths : ℕ := loanTermYears * 12
    let standardMonthlyPayment :=
      calculateMonthlyPayment loanAmount interestRate loanTermYears
    let totalStandardPayment := standardMonthlyPayment * (loanTermMonths : ℚ)
    let totalStandardInterest := totalStandardPayment - loanAmount
    if extraMonthlyPayment = 0 then
      .ok { newLoanTermMonths := loanTermMonths, monthsSaved := 0,
            interestSaved := 0, totalInterestStandard := totalStandardInterest,
            totalInterestWithExtra := totalStandardInterest }
    else
      let monthlyRate := interestRate / 100 / 12
      let result := extraLoop monthlyRate
        (standardMonthlyPayment + extraMonthlyPayment)
        (loanTermMonths * 2) loanAmount 0 0
      .ok { newLoanTermMonths := result.1,
            monthsSaved := (loanTermMonths : ℚ) - (result.1 : ℚ),
            interestSaved := totalStandardInterest - result.2,
            totalInterestStandard := totalStandardInterest,
            totalInterestWithExtra := result.2 }

/-- Projection used to state properties of a successful
`calculateExtraPaymentImpact` result without binders. -/
def impactOrDefault (x : Except String ExtraPaymentImpact) : ExtraPaymentImpact :=
  x.toOption.getD default

/-- `true` exactly on `Except.error`. -/
def isErr (x : Except String ExtraPaymentImpact) : Bool :=
  match x with
  | .error _ => true
  | .ok _ => false

/-- Spec-side restatement of the annuity formula, written from the
specification's words (§4.1 / claim C1): `r = annualInterestRatePercent /
100 / 12`, `n = termYears * 12`; `loanAmount / n` when `r = 0`, otherwise
`loanAmount * (r * (1+r)^n) / ((1+r)^n - 1)`. -/
def specMonthlyPayment (loanAmount annualInterestRatePercent : ℚ)
    (termYears : ℕ) : ℚ :=
  let r := annualInterestRatePercent / 100 / 12
  let n : ℕ := termYears * 12
  if r = 0 then loanAmount / (n : ℚ)
  else loanAmount * (r * (1 + r) ^ n) / ((1 + r) ^ n - 1)

/-! ## The underlying recurrences

`balSeq r M L i` is the loan balance after `i` payments of `M` per month at
monthly rate `r`, starting from `L`, with no clamping: this is exactly the
balance carried between iterations both by `generateAmortizationSchedule`
and by the simulation loop of `calculateExtraPaymentImpact`.
`geomSum r i = 1 + (1+r) + ⋯ + (1+r)^(i-1)` and `intSum` accumulates the
per-month interest charges. -/

/-- Unclamped balance after `i` payments of `M` at monthly rate `r`. -/
def balSeq (r M L : ℚ) : ℕ → ℚ
  | 0 => L
  | i + 1 => balSeq r M L i * (1 + r) - M

/-- Partial geometric sum `∑ k < i, (1+r)^k`. -/
def geomSum (r : ℚ) : ℕ → ℚ
  | 0 => 0
  | i + 1 => geomSum r i * (1 + r) + 1

/-- Accumulated interest `∑ k < m, balSeq r M L k * r`. -/
def intSum (r M L : ℚ) : ℕ → ℚ
  | 0 => 0
  | m + 1 => intSum r M L m + balSeq r M L m * r

theorem geomSum_mul (r : ℚ) : ∀ i, geomSum r i * r = (1 + r) ^ i - 1
  | 0 => by simp [geomSum]
  | i + 1 => by
    have h := geomSum_mul r i
    simp only [geomSum, pow_succ]
    ring_nf
    ring_nf at h
    linear_combination (1 + r) * h

theorem geomSum_nonneg {r : ℚ} (hr : 0 ≤ r) : ∀ i, 0 ≤ geomSum r i
  | 0 => le_refl 0
  | i + 1 => by
    have h := geomSum_nonneg hr i
    have h1 : (0:ℚ) ≤ 1 + r := by linarith
    simp only [geomSum]
    positivity

theorem geomSum_pos {r : ℚ} (hr : 0 ≤ r) {i : ℕ} (hi : 1 ≤ i) :
    0 < geomSum r i := by
  obtain ⟨j, rfl⟩ := Nat.exists_eq_add_of_le hi
  have h := geomSum_nonneg hr j
  have h1 : (0:ℚ) ≤ 1 + r := by linarith
  rw [Nat.add_comm]
  simp only [geomSum]
  positivity

theorem geomSum_add (r : ℚ) (i : ℕ) : ∀ j,
    geomSum r (i + j) = geomSum r i + (1 + r) ^ i * geomSum r j
  | 0 => by simp [geomSum]
  | j + 1 => by
    have h := geomSum_add r i j
    have hm := geomSum_mul r i
    rw [Nat.add_succ]
    simp only [geomSum, h]
    linear_combination hm

theorem balSeq_closed (r M L : ℚ) : ∀ i,
    balSeq r M L i = L * (1 + r) ^ i - M * geomSum r i
  | 0 => by simp [balSeq, geomSum]
  | i + 1 => by
    have h := balSeq_closed r M L i
    simp only [balSeq, geomSum, h, pow_succ]
    ring

theorem intSum_eq (r M L : ℚ) : ∀ m,
    intSum r M L m = balSeq r M L m - L + m * M
  | 0 => by simp [intSum, balSeq]
  | m + 1 => by
    have h := intSum_eq r M L m
    simp only [intSum, balSeq, h, Nat.cast_succ]
    ring

theorem geomSum_rate_zero : ∀ i, geomSum 0 i = (i : ℚ)
  | 0 => rfl
  | i + 1 => by simp [geomSum, geomSum_rate_zero i]

/-- The annuity identity, in product form: the computed monthly payment
times the geometric sum of accumulation factors recovers the accumulated
principal.  This is the single fact that makes the standard schedule land
exactly on zero. -/
theorem payment_mul_geomSum (L rate : ℚ) (t : ℕ) (hrate : 0 ≤ rate)
    (ht : 1 ≤ t) :
    calculateMonthlyPayment L rate t * geomSum (rate / 100 / 12) (t * 12) =
      L * (1 + rate / 100 / 12) ^ (t * 12) := by
  set r : ℚ := rate / 100 / 12 with hr
  have hn : (1:ℕ) ≤ t * 12 := le_trans ht (Nat.le_mul_of_pos_right t (by omega))
  by_cases h0 : r = 0
  · rw [calculateMonthlyPayment]
    simp only [← hr, if_pos h0, h0]
    rw [geomSum_rate_zero]
    have hne : ((t * 12 : ℕ) : ℚ) ≠ 0 := Nat.cast_ne_zero.mpr (by omega)
    field_simp
  · have hrpos : 0 < r := lt_of_le_of_ne (by positivity) (Ne.symm h0)
    have hpow : 1 < (1 + r) ^ (t * 12) :=
      one_lt_pow₀ (by linarith) (by omega)
    have hden : (1 + r) ^ (t * 12) - 1 ≠ 0 := by linarith
    have hg := geomSum_mul r (t * 12)
    rw [calculateMonthlyPayment]
    simp only [← hr, if_neg h0]
    rw [div_mul_eq_mul_div, div_eq_iff hden]
    linear_combination L * (1 + r) ^ (t * 12) * hg

section StandardSchedule

variable {L rate : ℚ} {t : ℕ}

/-- Under the standard payment, the unclamped balance is exactly zero after
the last scheduled payment. -/
theorem balSeq_std_final (hrate : 0 ≤ rate) (ht : 1 ≤ t) :
    balSeq (rate / 100 / 12) (calculateMonthlyPayment L rate t) L (t * 12) = 0 := by
  rw [balSeq_closed]
  have h := payment_mul_geomSum L rate t hrate ht
  linear_combination -h

/-- Under the standard payment, the product `P * geomSum r i` stays below
the accumulated principal for every `i ≤ n`: this is what keeps every
intermediate balance non-negative. -/
theorem payment_mul_geomSum_le (hL : 0 ≤ L) (hrate : 0 ≤ rate) (ht : 1 ≤ t)
    {i : ℕ} (hi : i ≤ t * 12) :
    calculateMonthlyPayment L rate t * geomSum (rate / 100 / 12) i ≤
      L * (1 + rate / 100 / 12) ^ i := by
  set r : ℚ := rate / 100 / 12 with hr
  set P : ℚ := calculateMonthlyPayment L rate t with hP
  set n : ℕ := t * 12 with hn
  have hr0 : (0:ℚ) ≤ r := by rw [hr]; positivity
  have h1r : (0:ℚ) ≤ 1 + r := by linarith
  have hgn : 0 < geomSum r n :=
    geomSum_pos hr0 (le_trans ht (Nat.le_mul_of_pos_right t (by omega)))
  have hPg : P * geomSum r n = L * (1 + r) ^ n := payment_mul_geomSum L rate t hrate ht
  rw [← mul_le_mul_right hgn]
  have key : (1 + r) ^ n * geomSum r i ≤ (1 + r) ^ i * geomSum r n := by
    have hsplit : geomSum r n = geomSum r (n - i) + (1 + r) ^ (n - i) * geomSum r i := by
      rw [← geomSum_add, Nat.sub_add_cancel hi]
    have hpow : (1 + r) ^ n = (1 + r) ^ i * (1 + r) ^ (n - i) := by
      rw [← pow_add, Nat.add_sub_cancel' hi]
    rw [hsplit, hpow]
    have hg1 : 0 ≤ geomSum r (n - i) := geomSum_nonneg hr0 _
    have hg2 : 0 ≤ geomSum r i := geomSum_nonneg hr0 _
    have hp1 : (0:ℚ) ≤ (1 + r) ^ i := pow_nonneg h1r _
    have hp2 : (0:ℚ) ≤ (1 + r) ^ (n - i) := pow_nonneg h1r _
    nlinarith
  calc P * geomSum r i * geomSum r n = P * geomSum r n * geomSum r i := by ring
    _ = L * (1 + r) ^ n * geomSum r i := by rw [hPg]
    _ = L * ((1 + r) ^ n * geomSum r i) := by ring
    _ ≤ L * ((1 + r) ^ i * geomSum r n) := mul_le_mul_of_nonneg_left key hL
    _ = L * (1 + r) ^ i * geomSum r n := by ring

/-- Intermediate standard balances are non-negative. -/
theorem balSeq_std_nonneg (hL : 0 ≤ L) (hrate : 0 ≤ rate) (ht : 1 ≤ t)
    {i : ℕ} (hi : i ≤ t * 12) :
    0 ≤ balSeq (rate / 100 / 12) (calculateMonthlyPayment L rate t) L i := by
  rw [balSeq_closed]
  have h := payment_mul_geomSum_le hL hrate ht hi
  linarith

/-- The standard payment covers at least the first month's interest. -/
theorem rate_mul_le_payment (hL : 0 ≤ L) (hrate : 0 ≤ rate) (ht : 1 ≤ t) :
    L * (rate / 100 / 12) ≤ calculateMonthlyPayment L rate t := by
  set r : ℚ := rate / 100 / 12 with hr
  set P : ℚ := calculateMonthlyPayment L rate t with hP
  set n : ℕ := t * 12 with hn
  have hr0 : (0:ℚ) ≤ r := by rw [hr]; positivity
  have hgn : 0 < geomSum r n :=
    geomSum_pos hr0 (le_trans ht (Nat.le_mul_of_pos_right t (by omega)))
  have hPg : P * geomSum r n = L * (1 + r) ^ n := payment_mul_geomSum L rate t hrate ht
  have hgm := geomSum_mul r n
  have key : (P - L * r) * geomSum r n = L := by linear_combination hPg - L * hgm
  nlinarith [hgn, key, hL]

/-- Standard balances never exceed the loan amount. -/
theorem balSeq_std_le (hL : 0 ≤ L) (hrate : 0 ≤ rate) (ht : 1 ≤ t) : ∀ i,
    balSeq (rate / 100 / 12) (calculateMonthlyPayment L rate t) L i ≤ L
  | 0 => le_refl L
  | i + 1 => by
    have h := balSeq_std_le hL hrate ht i
    have hr0 : (0:ℚ) ≤ rate / 100 / 12 := by positivity
    have hp := rate_mul_le_payment hL hrate ht
    simp only [balSeq]
    nlinarith

/-- Each standard balance is at most the previous one. -/
theorem balSeq_std_step_le (hL : 0 ≤ L) (hrate : 0 ≤ rate) (ht : 1 ≤ t) (i : ℕ) :
    balSeq (rate / 100 / 12) (calculateMonthlyPayment L rate t) L (i + 1) ≤
      balSeq (rate / 100 / 12) (calculateMonthlyPayment L rate t) L i := by
  have h := balSeq_std_le hL hrate ht i
  have hr0 : (0:ℚ) ≤ rate / 100 / 12 := by positivity
  have hp := rate_mul_le_payment hL hrate ht
  simp only [balSeq]
  nlinarith

/-- Standard balances are non-increasing. -/
theorem balSeq_std_antitone (hL : 0 ≤ L) (hrate : 0 ≤ rate) (ht : 1 ≤ t)
    {i j : ℕ} (hij : i ≤ j) :
    balSeq (rate / 100 / 12) (calculateMonthlyPayment L rate t) L j ≤
      balSeq (rate / 100 / 12) (calculateMonthlyPayment L rate t) L i := by
  induction j, hij using Nat.le_induction with
  | base => exact le_refl _
  | succ j hij ih => exact le_trans (balSeq_std_step_le hL hrate ht j) ih

end StandardSchedule

section ExtraPayment

variable {r M P L : ℚ}

/-- Paying more each month never leaves a larger balance. -/
theorem balSeq_mono_payment (hr : 0 ≤ r) (hPM : P ≤ M) : ∀ i,
    balSeq r M L i ≤ balSeq r P L i
  | 0 => le_refl L
  | i + 1 => by
    have h := balSeq_mono_payment hr hPM i
    simp only [balSeq]
    nlinarith

/-- With a strictly larger payment, the unclamped balance after the full
standard term is strictly negative. -/
theorem balSeq_extra_final_neg {rate : ℚ} {t : ℕ} (hrate : 0 ≤ rate) (ht : 1 ≤ t)
    (hPM : calculateMonthlyPayment L rate t < M) :
    balSeq (rate / 100 / 12) M L (t * 12) < 0 := by
  set r : ℚ := rate / 100 / 12 with hr
  have hr0 : (0:ℚ) ≤ r := by rw [hr]; positivity
  have hgn : 0 < geomSum r (t * 12) :=
    geomSum_pos hr0 (le_trans ht (Nat.le_mul_of_pos_right t (by omega)))
  have h0 := balSeq_std_final (L := L) hrate ht
  rw [balSeq_closed] at h0 ⊢
  nlinarith

/-- Accumulated interest is monotone in the payment (larger payments accrue
less interest month by month). -/
theorem intSum_mono_payment (hr : 0 ≤ r) (hPM : P ≤ M) : ∀ m,
    intSum r M L m ≤ intSum r P L m
  | 0 => le_refl 0
  | m + 1 => by
    have h := intSum_mono_payment hr hPM m
    have hb := balSeq_mono_payment (L := L) hr hPM m
    simp only [intSum]
    nlinarith

/-- Under the standard payment, accumulated interest grows with the number
of months, up to the standard term. -/
theorem intSum_std_mono {rate : ℚ} {t : ℕ} (hL : 0 ≤ L) (hrate : 0 ≤ rate)
    (ht : 1 ≤ t) {m : ℕ} (hm : m ≤ t * 12) :
    intSum (rate / 100 / 12) (calculateMonthlyPayment L rate t) L m ≤
      intSum (rate / 100 / 12) (calculateMonthlyPayment L rate t) L (t * 12) := by
  have hr0 : (0:ℚ) ≤ rate / 100 / 12 := by positivity
  have step : ∀ j, m ≤ j → j ≤ t * 12 →
      intSum (rate / 100 / 12) (calculateMonthlyPayment L rate t) L m ≤
        intSum (rate / 100 / 12) (calculateMonthlyPayment L rate t) L j := by
    intro j hmj
    induction j, hmj using Nat.le_induction with
    | base => exact fun _ => le_refl _
    | succ j hmj ih =>
      intro hj
      have hb := balSeq_std_nonneg (L := L) hL hrate ht (Nat.le_of_succ_le hj)
      have h := ih (Nat.le_of_succ_le hj)
      simp only [intSum]
      nlinarith
  exact step (t * 12) hm (le_refl _)

end ExtraPayment

/-- Total interest of the full standard schedule, in the closed form the
source computes as `standardMonthlyPayment * loanTermMonths - loanAmount`. -/
theorem intSum_std_total {L rate : ℚ} {t : ℕ} (hrate : 0 ≤ rate) (ht : 1 ≤ t) :
    intSum (rate / 100 / 12) (calculateMonthlyPayment L rate t) L (t * 12) =
      calculateMonthlyPayment L rate t * ((t * 12 : ℕ) : ℚ) - L := by
  rw [intSum_eq, balSeq_std_final hrate ht]
  ring

/-- A non-positive balance exits the simulation loop at once, whatever fuel
remains: this is the `balance > 0` half of the loop guard. -/
theorem extraLoop_nonpos (r M : ℚ) {b : ℚ} (hb : b ≤ 0) :
    ∀ fuel t k, extraLoop r M fuel b t k = (k, t)
  | 0, _, _ => rfl
  | _ + 1, _, _ => by simp only [extraLoop, if_neg (not_lt.mpr hb)]

/-- The month counter grows by at most the remaining fuel: this is the
`month < loanTermMonths * 2` half of the loop guard. -/
theorem extraLoop_fst_le (r M : ℚ) : ∀ fuel b t k,
    (extraLoop r M fuel b t k).1 ≤ k + fuel
  | 0, _, _, k => Nat.le_refl k
  | fuel + 1, b, t, k => by
    simp only [extraLoop]
    split_ifs with h1 h2
    · exact le_trans (extraLoop_fst_le r M fuel 0 _ (k + 1)) (by omega)
    · exact le_trans (extraLoop_fst_le r M fuel _ _ (k + 1)) (by omega)
    · omega

/-- Full characterization of the simulation loop on the balance recurrence:
started at month `k` in a run whose first non-positive balance occurs at
month `m`, and given enough fuel, the loop returns month `m` and the
accumulated interest through month `m`, with the overshoot correction
`balSeq m * r` applied exactly when the final balance went strictly
negative. -/
theorem extraLoop_run (r M L : ℚ) {m : ℕ} (hm : balSeq r M L m ≤ 0)
    (hmin : ∀ i, i < m → 0 < balSeq r M L i) :
    ∀ fuel k, k < m → m ≤ k + fuel →
      extraLoop r M fuel (balSeq r M L k) (intSum r M L k) k =
        (m, intSum r M L m +
          if balSeq r M L m < 0 then balSeq r M L m * r else 0) := by
  intro fuel
  induction fuel with
  | zero => intro k hk hfuel; omega
  | succ fuel ih =>
    intro k hk hfuel
    have hbk : 0 < balSeq r M L k := hmin k hk
    simp only [extraLoop, if_pos hbk]
    have hb1 : balSeq r M L k - (M - balSeq r M L k * r) = balSeq r M L (k + 1) := by
      simp only [balSeq]; ring
    rw [hb1]
    have hint : intSum r M L k + balSeq r M L k * r = intSum r M L (k + 1) := rfl
    rcases Nat.lt_or_ge (k + 1) m with hlt | hge
    · have hpos := hmin (k + 1) hlt
      rw [if_neg (not_lt.mpr (le_of_lt hpos)), hint]
      exact ih (k + 1) hlt (by omega)
    · have hkm : k + 1 = m := by omega
      subst hkm
      rcases lt_or_eq_of_le hm with hneg | heq
      · rw [if_pos hneg, extraLoop_nonpos r M (le_refl (0:ℚ)), if_pos hneg]
        rfl
      · have hnlt : ¬ balSeq r M L (k + 1) < 0 := by rw [heq]; exact lt_irrefl 0
        rw [if_neg hnlt, extraLoop_nonpos r M (le_of_eq heq), if_neg hnlt, add_zero,
          hint]

/-! ## Schedule generator lemmas -/

theorem schedGo_length (M r : ℚ) : ∀ count b pn,
    (schedGo M r b pn count).length = count
  | 0, _, _ => rfl
  | count + 1, b, pn => by
    simp only [schedGo, List.length_cons, schedGo_length M r count]

/-- Every entry of the generated schedule, in terms of the unclamped
balance recurrence: entry `i` (0-based) of a run started at balance
`balSeq r M L k` with payment number `k + 1` charges interest on the raw
balance `balSeq r M L (k + i)` and stores the clamped balance
`max 0 (balSeq r M L (k + i + 1))`. -/
theorem schedGo_getD (M r L : ℚ) (d : ScheduleEntry) : ∀ count k i, i < count →
    (schedGo M r (balSeq r M L k) (k + 1) count).getD i d =
      { paymentNumber := k + i + 1, payment := M,
        principal := M - balSeq r M L (k + i) * r,
        interest := balSeq r M L (k + i) * r,
        remainingBalance := max 0 (balSeq r M L (k + i + 1)) }
  | 0, _, _, h => absurd h (Nat.not_lt_zero _)
  | count + 1, k, 0, _ => by
    simp only [schedGo, List.getD_cons_zero]
    have hb : balSeq r M L k - (M - balSeq r M L k * r) = balSeq r M L (k + 1) := by
      simp only [balSeq]; ring
    rw [hb]
    simp
  | count + 1, k, i + 1, h => by
    simp only [schedGo, List.getD_cons_succ]
    have hb : balSeq r M L k - (M - balSeq r M L k * r) = balSeq r M L (k + 1) := by
      simp only [balSeq]; ring
    rw [hb]
    have ih := schedGo_getD M r L d count (k + 1) i (by omega)
    have e : k + 1 + i = k + (i + 1) := by omega
    rw [e] at ih
    exact ih

/-- The principal column telescopes: its sum is the drop in the unclamped
balance across the run. -/
theorem schedGo_principal_sum (M r L : ℚ) : ∀ count k,
    ((schedGo M r (balSeq r M L k) (k + 1) count).map
      ScheduleEntry.principal).sum = balSeq r M L k - balSeq r M L (k + count)
  | 0, k => by simp [schedGo]
  | count + 1, k => by
    simp only [schedGo, List.map_cons, List.sum_cons]
    have hb : balSeq r M L k - (M - balSeq r M L k * r) = balSeq r M L (k + 1) := by
      simp only [balSeq]; ring
    rw [hb, schedGo_principal_sum M r L count (k + 1)]
    have e : k + 1 + count = k + (count + 1) := by omega
    rw [e]
    have hs : balSeq r M L (k + 1) = balSeq r M L k * (1 + r) - M := rfl
    linear_combination hs

/-- Once the unclamped balance is non-positive it stays non-positive (for a
non-negative payment and rate). -/
theorem balSeq_nonpos_stays {r M L : ℚ} (hM : 0 ≤ M) (hr : 0 ≤ r) {j : ℕ}
    (hj : balSeq r M L j ≤ 0) : ∀ k, j ≤ k → balSeq r M L k ≤ 0 := by
  intro k hk
  induction k, hk using Nat.le_induction with
  | base => exact hj
  | succ k _ ih =>
    have : balSeq r M L (k + 1) = balSeq r M L k * (1 + r) - M := rfl
    nlinarith

/-- Entries of `generateAmortizationSchedule` in closed form over the
unclamped balance recurrence. -/
theorem generateSchedule_getD (L M rate : ℚ) (t : ℕ) (d : ScheduleEntry)
    {i : ℕ} (hi : i < t * 12) :
    (generateAmortizationSchedule L M rate t).getD i d =
      { paymentNumber := i + 1, payment := M,
        principal := M - balSeq (rate / 100 / 12) M L i * (rate / 100 / 12),
        interest := balSeq (rate / 100 / 12) M L i * (rate / 100 / 12),
        remainingBalance := max 0 (balSeq (rate / 100 / 12) M L (i + 1)) } := by
  have h := schedGo_getD M (rate / 100 / 12) L d (t * 12) 0 i hi
  simp only [Nat.zero_add] at h
  rw [generateAmortizationSchedule]
  exact h

/-! ## Claim theorems -/

/-- C1 (confirmed).  `calculateMonthlyPayment` coincides pointwise with the
specification's formula `specMonthlyPayment`: monthly rate
`r = annualInterestRatePercent / 100 / 12`, `n = termYears * 12` payments,
`loanAmount / n` when `r = 0`, and the standard annuity formula
`loanAmount * (r * (1+r)^n) / ((1+r)^n - 1)` otherwise. -/
theorem monthlyPayment_matches_spec (L rate : ℚ) (t : ℕ) :
    calculateMonthlyPayment L rate t = specMonthlyPayment L rate t := rfl

/-- C3 (confirmed).  `calculateExtraPaymentImpact` fails (with
`InvalidInputError`, modelled as `Except.error`) if and only if
`loanAmount ≤ 0`, `annualInterestRatePercent < 0`, `termYears ≤ 0` (that
is, `= 0` over natural-number years) or `extraMonthlyPayment < 0`; in every
other case an `Except.ok` result is produced, and in the error case nothing
is computed. -/
theorem extraImpact_error_iff (L rate : ℚ) (t : ℕ) (e : ℚ) :
    isErr (calculateExtraPaymentImpact L rate t e) = true ↔
      (L ≤ 0 ∨ rate < 0 ∨ t = 0 ∨ e < 0) := by
  rw [calculateExtraPaymentImpact]
  split_ifs with h1 h2 h3 h4 h5 <;> simp_all [isErr, Nat.le_zero]

/-- C4 (confirmed).  For validated inputs with a zero extra payment the
fast path returns the standard baseline unchanged: the full term in months,
zero months saved, zero interest saved, and identical standard/with-extra
total interest figures. -/
theorem extraImpact_zero_extra_fast_path (L rate : ℚ) (t : ℕ)
    (hL : 0 < L) (hrate : 0 ≤ rate) (ht : 1 ≤ t) :
    calculateExtraPaymentImpact L rate t 0 =
      .ok { newLoanTermMonths := t * 12, monthsSaved := 0, interestSaved := 0,
            totalInterestStandard :=
              calculateMonthlyPayment L rate t * ((t * 12 : ℕ) : ℚ) - L,
            totalInterestWithExtra :=
              calculateMonthlyPayment L rate t * ((t * 12 : ℕ) : ℚ) - L } := by
  rw [calculateExtraPaymentImpact]
  rw [if_neg (not_le.mpr hL), if_neg (not_lt.mpr hrate), if_neg (by omega),
    if_neg (lt_irrefl (0:ℚ)), if_pos rfl]

/-- C2 (corrected, counterexample).  The claim's recurrence carries the
*clamped* balance forward: it predicts the interest of payment 2 to be
`remainingBalance₁ * r`.  For `loanAmount = 100`, `monthlyPayment = 200`,
rate `12%`, term `1` year the code reports `remainingBalance₁ = 0` yet
charges interest `-99/100 ≠ 0 * r` at payment 2, because the raw negative
balance `-99`, not the clamped `0`, is carried into period 2. -/
theorem schedule_clamped_recurrence_counterexample :
    ((generateAmortizationSchedule 100 200 12 1).getD 1 default).interest ≠
      ((generateAmortizationSchedule 100 200 12 1).getD 0 default).remainingBalance *
        (12 / 100 / 12) := by
  with_unfolding_all decide

/-- C2 (corrected, amended claim).  `generateAmortizationSchedule` follows
the per-period recurrence on the *unclamped* balance `balSeq`
(`ubal₀ = loanAmount`, `ubalᵢ = ubalᵢ₋₁ - principalᵢ`): entry `i+1`'s
interest is `ubalᵢ * r`, its principal is `monthlyPayment` minus that
interest, and only the *reported* `remainingBalance` is clamped, as
`max 0 ubalᵢ₊₁`.  Consequently (second conjunct), once the unclamped
balance is non-positive, every later reported `remainingBalance` is stuck
at 0 (for non-negative payment and rate), while the tail's principal and
interest entries follow the raw recurrence and need not be zero. -/
theorem schedule_recurrence_unclamped (L M rate : ℚ) (t : ℕ) :
    (∀ i, i < t * 12 →
      ((generateAmortizationSchedule L M rate t).getD i default).interest =
          balSeq (rate / 100 / 12) M L i * (rate / 100 / 12) ∧
        ((generateAmortizationSchedule L M rate t).getD i default).principal =
          M - balSeq (rate / 100 / 12) M L i * (rate / 100 / 12) ∧
        ((generateAmortizationSchedule L M rate t).getD i default).remainingBalance =
          max 0 (balSeq (rate / 100 / 12) M L (i + 1))) ∧
    (0 ≤ M → 0 ≤ rate → ∀ j k, balSeq (rate / 100 / 12) M L j ≤ 0 → j ≤ k →
      k < t * 12 →
      ((generateAmortizationSchedule L M rate t).getD k default).remainingBalance
        = 0) := by
  constructor
  · intro i hi
    rw [generateSchedule_getD L M rate t default hi]
    exact ⟨rfl, rfl, rfl⟩
  · intro hM hrate j k hj hjk hk
    rw [generateSchedule_getD L M rate t default hk]
    have hr : (0:ℚ) ≤ rate / 100 / 12 := by positivity
    have hk1 : balSeq (rate / 100 / 12) M L (k + 1) ≤ 0 :=
      balSeq_nonpos_stays hM hr hj (k + 1) (by omega)
    simpa using max_eq_left hk1

/-- Witness for the amended C2 at a concrete input (period 1 equations and
the stuck-at-zero tail at period 2 of the 100/200/12%/1yr run). -/
theorem schedule_recurrence_unclamped_witness :
    ((0:ℕ) < 1 * 12 ∧
      (((generateAmortizationSchedule 100 200 12 1).getD 0 default).interest =
          balSeq (12 / 100 / 12) 200 100 0 * (12 / 100 / 12) ∧
        ((generateAmortizationSchedule 100 200 12 1).getD 0 default).principal =
          200 - balSeq (12 / 100 / 12) 200 100 0 * (12 / 100 / 12) ∧
        ((generateAmortizationSchedule 100 200 12 1).getD 0 default).remainingBalance =
          max 0 (balSeq (12 / 100 / 12) 200 100 (0 + 1)))) ∧
    ((0:ℚ) ≤ 200 ∧ (0:ℚ) ≤ 12 ∧ balSeq (12 / 100 / 12) 200 100 1 ≤ 0 ∧
      ((generateAmortizationSchedule 100 200 12 1).getD 2 default).remainingBalance
        = 0) :=
  ⟨⟨by norm_num, (schedule_recurrence_unclamped 100 200 12 1).1 0 (by norm_num)⟩,
    ⟨by norm_num, by norm_num, by with_unfolding_all decide,
      (schedule_recurrence_unclamped 100 200 12 1).2 (by norm_num) (by norm_num)
        1 2 (by with_unfolding_all decide) (by norm_num) (by norm_num)⟩⟩

/-- C8 (confirmed).  For a standard schedule built from the payment
computed by `calculateMonthlyPayment` on the same validated inputs, the
reported `remainingBalance` column is non-increasing in the payment number,
and the final entry's balance is below one currency unit (it is exactly 0
in exact arithmetic). -/
theorem schedule_balance_monotone_final (L rate : ℚ) (t : ℕ)
    (hL : 0 < L) (hrate : 0 ≤ rate) (ht : 1 ≤ t) :
    (∀ i j, i ≤ j → j < t * 12 →
      ((generateAmortizationSchedule L (calculateMonthlyPayment L rate t) rate
          t).getD j default).remainingBalance ≤
        ((generateAmortizationSchedule L (calculateMonthlyPayment L rate t) rate
          t).getD i default).remainingBalance) ∧
    ((generateAmortizationSchedule L (calculateMonthlyPayment L rate t) rate
        t).getD (t * 12 - 1) default).remainingBalance < 1 := by
  have hn : 0 < t * 12 := by omega
  constructor
  · intro i j hij hj
    rw [generateSchedule_getD L _ rate t default hj,
      generateSchedule_getD L _ rate t default (lt_of_le_of_lt hij hj)]
    exact max_le_max (le_refl 0)
      (balSeq_std_antitone (le_of_lt hL) hrate ht (by omega))
  · rw [generateSchedule_getD L _ rate t default (by omega : t * 12 - 1 < t * 12)]
    have he : t * 12 - 1 + 1 = t * 12 := by omega
    rw [he, balSeq_std_final hrate ht]
    norm_num

/-- Witness for C8 at a concrete validated input. -/
theorem schedule_balance_monotone_final_witness :
    (0:ℚ) < 1200 ∧
    ((generateAmortizationSchedule 1200 (calculateMonthlyPayment 1200 0 1) 0
        1).getD (1 * 12 - 1) default).remainingBalance < 1 :=
  ⟨by norm_num,
    (schedule_balance_monotone_final 1200 0 1 (by norm_num) (le_refl 0)
      (le_refl 1)).2⟩

/-- C9 (confirmed, exactly).  For a standard schedule built from the
payment computed on the same validated inputs, the principal column sums to
the loan amount exactly in exact arithmetic — a fortiori within the
spec's rounding tolerance of one currency unit. -/
theorem schedule_principal_sum_exact (L rate : ℚ) (t : ℕ)
    (hL : 0 < L) (hrate : 0 ≤ rate) (ht : 1 ≤ t) :
    ((generateAmortizationSchedule L (calculateMonthlyPayment L rate t) rate
        t).map ScheduleEntry.principal).sum = L := by
  have h := schedGo_principal_sum (calculateMonthlyPayment L rate t)
    (rate / 100 / 12) L (t * 12) 0
  simp only [Nat.zero_add, balSeq] at h
  rw [generateAmortizationSchedule, h, balSeq_std_final hrate ht, sub_zero]

/-- Witness for C9 at a concrete validated input. -/
theorem schedule_principal_sum_exact_witness :
    (0:ℚ) < 1200 ∧
    ((generateAmortizationSchedule 1200 (calculateMonthlyPayment 1200 0 1) 0
        1).map ScheduleEntry.principal).sum = 1200 :=
  ⟨by norm_num,
    schedule_principal_sum_exact 1200 0 1 (by norm_num) (le_refl 0) (le_refl 1)⟩

/-- C10 (confirmed).  The schedule is a fully materialized list of exactly
`termYears * 12` entries whose `paymentNumber` fields run `1..N`
sequentially; it is a pure function of its arguments (in this embedding,
definitionally: equal inputs give the same list). -/
theorem schedule_length_and_numbering (L M rate : ℚ) (t : ℕ) :
    (generateAmortizationSchedule L M rate t).length = t * 12 ∧
    ∀ i, i < t * 12 →
      ((generateAmortizationSchedule L M rate t).getD i default).paymentNumber
        = i + 1 := by
  constructor
  · rw [generateAmortizationSchedule]
    exact schedGo_length M (rate / 100 / 12) (t * 12) L 1
  · intro i hi
    rw [generateSchedule_getD L M rate t default hi]

/-- Witness for C10 at a concrete input. -/
theorem schedule_length_and_numbering_witness :
    (generateAmortizationSchedule 100 10 5 1).length = 1 * 12 ∧
    ((generateAmortizationSchedule 100 10 5 1).getD 3 default).paymentNumber
      = 3 + 1 :=
  ⟨(schedule_length_and_numbering 100 10 5 1).1,
    (schedule_length_and_numbering 100 10 5 1).2 3 (by norm_num)⟩

/-- Witness for C4 at a concrete validated input. -/
theorem extraImpact_zero_extra_fast_path_witness :
    (0:ℚ) < 1000 ∧ (0:ℚ) ≤ 5 ∧ 1 ≤ 1 ∧
    calculateExtraPaymentImpact 1000 5 1 0 =
      .ok { newLoanTermMonths := 1 * 12, monthsSaved := 0, interestSaved := 0,
            totalInterestStandard :=
              calculateMonthlyPayment 1000 5 1 * ((1 * 12 : ℕ) : ℚ) - 1000,
            totalInterestWithExtra :=
              calculateMonthlyPayment 1000 5 1 * ((1 * 12 : ℕ) : ℚ) - 1000 } :=
  ⟨by norm_num, by norm_num, le_refl 1,
    extraImpact_zero_extra_fast_path 1000 5 1 (by norm_num) (by norm_num)
      (le_refl 1)⟩

theorem impactOrDefault_ok (x : ExtraPaymentImpact) :
    impactOrDefault (.ok x) = x := rfl

/-- C6 (confirmed).  When the simulated balance goes negative in a period
(`b - (M - b*r) < 0` starting from `b > 0`), the loop adds the month's
interest `b * r` and then adds the negative `overshoot * r` back into the
running total — subtracting exactly the excess interest charged on the
overshoot — treats the balance as 0, and ends the simulation at the very
next guard check, so this is the final simulated period. -/
theorem extraLoop_overshoot_adjustment (r M b totalI : ℚ) (fuel month : ℕ)
    (hb : 0 < b) (hover : b - (M - b * r) < 0) :
    extraLoop r M (fuel + 1) b totalI month =
      (month + 1, totalI + b * r + (b - (M - b * r)) * r) := by
  simp only [extraLoop, if_pos hb, if_pos hover]
  exact extraLoop_nonpos r M (le_refl (0:ℚ)) fuel _ _

/-- Witness for C6 at a concrete overshooting state. -/
theorem extraLoop_overshoot_adjustment_witness :
    (0:ℚ) < 50 ∧ (50:ℚ) - (60 - 50 * 0) < 0 ∧
    extraLoop 0 60 (3 + 1) 50 7 2 = (2 + 1, 7 + 50 * 0 + (50 - (60 - 50 * 0)) * 0) :=
  ⟨by norm_num, by norm_num,
    extraLoop_overshoot_adjustment 0 60 50 7 3 2 (by norm_num) (by norm_num)⟩

/-- C7 (confirmed).  For validated inputs with a positive extra payment the
simulation terminates within the safety bound: the returned
`newLoanTermMonths` is at most `2 * termYears * 12` months. -/
theorem extraImpact_term_bound (L rate : ℚ) (t : ℕ) (e : ℚ)
    (hL : 0 < L) (hrate : 0 ≤ rate) (ht : 1 ≤ t) (he : 0 < e) :
    isErr (calculateExtraPaymentImpact L rate t e) = false ∧
    (impactOrDefault (calculateExtraPaymentImpact L rate t e)).newLoanTermMonths ≤
      2 * (t * 12) := by
  simp only [calculateExtraPaymentImpact, if_neg (not_le.mpr hL),
    if_neg (not_lt.mpr hrate), if_neg (by omega : ¬ t ≤ 0),
    if_neg (not_lt.mpr he.le), if_neg (ne_of_gt he)]
  refine ⟨rfl, ?_⟩
  rw [impactOrDefault_ok]
  have h := extraLoop_fst_le (rate / 100 / 12)
    (calculateMonthlyPayment L rate t + e) (t * 12 * 2) L 0 0
  have h2 : 0 + t * 12 * 2 ≤ 2 * (t * 12) := by omega
  exact le_trans h h2

/-- Witness for C7 at a concrete validated input. -/
theorem extraImpact_term_bound_witness :
    (0:ℚ) < 1200 ∧ (0:ℚ) < 100 ∧
    (isErr (calculateExtraPaymentImpact 1200 0 1 100) = false ∧
      (impactOrDefault
        (calculateExtraPaymentImpact 1200 0 1 100)).newLoanTermMonths ≤
        2 * (1 * 12)) :=
  ⟨by norm_num, by norm_num,
    extraImpact_term_bound 1200 0 1 100 (by norm_num) (le_refl 0) (le_refl 1)
      (by norm_num)⟩

/-- C5 (corrected, counterexample).  The validated input
`loanAmount = 1200`, rate `0%`, term `1` year, `extraMonthlyPayment = 1`
yields `newLoanTermMonths = 12 = termYears * 12` (not strictly less),
`monthsSaved = 0` (not strictly positive) and `interestSaved = 0` (not
strictly positive): the extra dollar is too small to retire the loan even
one month early, and at `0%` there is no interest to save. -/
theorem extraImpact_strict_savings_counterexample :
    isErr (calculateExtraPaymentImpact 1200 0 1 1) = false ∧
    (impactOrDefault (calculateExtraPaymentImpact 1200 0 1 1)).newLoanTermMonths
      = 1 * 12 ∧
    (impactOrDefault (calculateExtraPaymentImpact 1200 0 1 1)).monthsSaved = 0 ∧
    (impactOrDefault (calculateExtraPaymentImpact 1200 0 1 1)).interestSaved = 0 := by
  with_unfolding_all decide

set_option exponentiation.threshold 400 in
set_option maxRecDepth 40000 in
/-- C5 (corrected, amended claim).  For every validated input with
`extraMonthlyPayment > 0`, `calculateExtraPaymentImpact` succeeds with
`newLoanTermMonths ≤ termYears * 12`, `monthsSaved ≥ 0` and
`interestSaved ≥ 0` (the strict versions fail for inputs such as zero
interest rate or a tiny extra payment); and in the claim's concrete
scenario — loanAmount 300000, rate 4.5%, term 30 years, extra 200 — the
strict facts do hold: `newLoanTermMonths < 360` and `interestSaved > 0`. -/
theorem extraImpact_positive_extra_bounds :
    (∀ (L rate : ℚ) (t : ℕ) (e : ℚ), 0 < L → 0 ≤ rate → 1 ≤ t → 0 < e →
      isErr (calculateExtraPaymentImpact L rate t e) = false ∧
      (impactOrDefault (calculateExtraPaymentImpact L rate t e)).newLoanTermMonths
        ≤ t * 12 ∧
      0 ≤ (impactOrDefault (calculateExtraPaymentImpact L rate t e)).monthsSaved ∧
      0 ≤ (impactOrDefault (calculateExtraPaymentImpact L rate t e)).interestSaved) ∧
    ((impactOrDefault
        (calculateExtraPaymentImpact 300000 (9/2) 30 200)).newLoanTermMonths < 360 ∧
      0 < (impactOrDefault
        (calculateExtraPaymentImpact 300000 (9/2) 30 200)).interestSaved) := by
  constructor
  · intro L rate t e hL hrate ht he
    have hr0 : (0:ℚ) ≤ rate / 100 / 12 := by positivity
    have hPM : calculateMonthlyPayment L rate t <
        calculateMonthlyPayment L rate t + e := lt_add_of_pos_right _ he
    have hnegn : balSeq (rate / 100 / 12)
        (calculateMonthlyPayment L rate t + e) L (t * 12) < 0 :=
      balSeq_extra_final_neg hrate ht hPM
    have hex : ∃ i, balSeq (rate / 100 / 12)
        (calculateMonthlyPayment L rate t + e) L i ≤ 0 := ⟨t * 12, hnegn.le⟩
    have hm := Nat.find_spec hex
    have hmle : Nat.find hex ≤ t * 12 := Nat.find_le hnegn.le
    have hmin : ∀ i, i < Nat.find hex → 0 < balSeq (rate / 100 / 12)
        (calculateMonthlyPayment L rate t + e) L i :=
      fun i hi => lt_of_not_le (Nat.find_min hex hi)
    have hmpos : 0 < Nat.find hex := by
      rcases Nat.eq_zero_or_pos (Nat.find hex) with h0 | h
      · exfalso
        have h1 := hm
        rw [h0] at h1
        simp only [balSeq] at h1
        linarith
      · exact h
    have hrun := extraLoop_run (rate / 100 / 12)
      (calculateMonthlyPayment L rate t + e) L hm hmin (t * 12 * 2) 0 hmpos
      (by omega)
    simp only [balSeq, intSum] at hrun
    simp only [calculateExtraPaymentImpact, if_neg (not_le.mpr hL),
      if_neg (not_lt.mpr hrate), if_neg (by omega : ¬ t ≤ 0),
      if_neg (not_lt.mpr he.le), if_neg (ne_of_gt he), hrun, impactOrDefault_ok]
    refine ⟨rfl, hmle, ?_, ?_⟩
    · simp only [sub_nonneg]
      exact_mod_cast Nat.cast_le.mpr hmle
    · have hts := intSum_std_total (L := L) hrate ht
      have hadj : (if balSeq (rate / 100 / 12)
            (calculateMonthlyPayment L rate t + e) L (Nat.find hex) < 0 then
            balSeq (rate / 100 / 12)
              (calculateMonthlyPayment L rate t + e) L (Nat.find hex) *
              (rate / 100 / 12)
          else 0) ≤ 0 := by
        split_ifs with hsign
        · exact mul_nonpos_of_nonpos_of_nonneg hsign.le hr0
        · exact le_refl 0
      have h1 : intSum (rate / 100 / 12)
          (calculateMonthlyPayment L rate t + e) L (Nat.find hex) ≤
          intSum (rate / 100 / 12) (calculateMonthlyPayment L rate t) L
            (Nat.find hex) :=
        intSum_mono_payment (L := L) hr0 hPM.le _
      have h2 : intSum (rate / 100 / 12) (calculateMonthlyPayment L rate t) L
          (Nat.find hex) ≤
          intSum (rate / 100 / 12) (calculateMonthlyPayment L rate t) L
            (t * 12) :=
        intSum_std_mono hL.le hrate ht hmle
      simp only [sub_nonneg]
      linarith
  · constructor
    · with_unfolding_all decide
    · with_unfolding_all decide

/-- Witness for the amended C5 at a concrete validated input. -/
theorem extraImpact_positive_extra_bounds_witness :
    (0:ℚ) < 1200 ∧ (0:ℚ) ≤ 12 ∧ (1:ℕ) ≤ 1 ∧ (0:ℚ) < 100 ∧
    (isErr (calculateExtraPaymentImpact 1200 12 1 100) = false ∧
      (impactOrDefault (calculateExtraPaymentImpact 1200 12 1 100)).newLoanTermMonths
        ≤ 1 * 12 ∧
      0 ≤ (impactOrDefault (calculateExtraPaymentImpact 1200 12 1 100)).monthsSaved ∧
      0 ≤ (impactOrDefault (calculateExtraPaymentImpact 1200 12 1 100)).interestSaved) :=
  ⟨by norm_num, by norm_num, le_refl 1, by norm_num,
    extraImpact_positive_extra_bounds.1 1200 12 1 100 (by norm_num) (by norm_num)
      (le_refl 1) (by norm_num)⟩

end Mortgage
